import Mathlib

/-!
Verification development for the VisTwo trajectory-playback core.

The embedded code comes from `src/legacy_parsers.rs`, `src/replay.rs` and the
viewport-fitting function in `src/main.rs`.

Modelling conventions:
* `f32` coordinates are modelled as exact rationals (`ℚ`).  Every concrete
  value appearing in the properties below (`0.0`, `1.0`, `-1.5`, ...) is
  exactly representable in `f32`, so on those inputs the rational model and
  the `f32` code coincide.  `f32::MAX` / `f32::MIN`, used as sentinels by
  `Trajectory::area`, are embedded as their exact rational values.
* `std::time::Duration` is modelled as a count of nanoseconds (`ℕ`); its
  addition, `min` and multiplication are exact integer arithmetic, as in the
  source.  The frame index recomputed by `advance_by` as
  `(elapsed.as_secs_f64() / frame_duration.as_secs_f64()) as usize` is
  embedded faithfully: `f64` values are represented by the exact rationals
  they denote, and every conversion and arithmetic operation applies
  `roundF64`, round-to-nearest-even at 53 significant bits, which is IEEE-754
  binary64 rounding for zero and all normal, non-overflowing magnitudes
  (the only magnitudes durations can reach).
* The parser's `i32` frame id is always produced from a digit string
  (regex group `\d+`), hence non-negative; it is embedded as `ℕ`.
* Rust's `sort_by(|a, b| a.frame_id.cmp(&b.frame_id))` is a stable
  ascending sort by `frame_id`.  A stable sort is uniquely determined by
  its comparison key, so it is embedded as `List.insertionSort` (stable) by
  the same key.
-/

namespace VisTwo

/-- `Frame` from `legacy_parsers.rs`: a list of 2D positions. -/
structure Frame where
  positions : List (ℚ × ℚ)
deriving DecidableEq, Repr

/-- `Frame::new()`. -/
def Frame.new : Frame := ⟨[]⟩

/-- `Trajectory` from `legacy_parsers.rs`: an ordered list of frames. -/
structure Trajectory where
  frames : List Frame
deriving DecidableEq, Repr

/-- Exact rational value of `f32::MAX` = (2^24 - 1) * 2^104. -/
def f32MAX : ℚ := (2 ^ 24 - 1) * 2 ^ 104

/-- Exact rational value of `f32::MIN` = -f32::MAX. -/
def f32MIN : ℚ := -f32MAX

/-- One step of the scan in `Trajectory::area`: fold a position into the
running `(x_min, x_max, y_min, y_max)` extrema. -/
def areaStep (acc : ℚ × ℚ × ℚ × ℚ) (p : ℚ × ℚ) : ℚ × ℚ × ℚ × ℚ :=
  (min p.1 acc.1, max p.1 acc.2.1, min p.2 acc.2.2.1, max p.2 acc.2.2.2)

/-- `Trajectory::area`: scan every position of every frame, starting from the
`f32::MAX` / `f32::MIN` sentinels, returning `(x_min, x_max, y_min, y_max)`. -/
def Trajectory.area (t : Trajectory) : ℚ × ℚ × ℚ × ℚ :=
  t.frames.foldl (fun acc f => f.positions.foldl areaStep acc)
    (f32MAX, f32MIN, f32MAX, f32MIN)

/-- `Entry` from `legacy_parsers.rs` (parser-internal). -/
structure Entry where
  frame_id : ℕ
  position : ℚ × ℚ
deriving DecidableEq, Repr

/-- Maximal run of decimal digits; fails when the first character is not a
digit (regex `\d+`). -/
def takeDigits (cs : List Char) : Option (List Char × List Char) :=
  let ds := cs.takeWhile Char.isDigit
  if ds.isEmpty then none else some (ds, cs.dropWhile Char.isDigit)

/-- Regex fragment `\d+(?:\.\d+)?`: an integer part and an optional
fractional part.  Returns (integer digits, fractional digits, rest); when
the dot is not followed by a digit the dot is left unconsumed, exactly as
regex backtracking would leave it. -/
def takeDecimal (cs : List Char) : Option (List Char × List Char × List Char) :=
  match takeDigits cs with
  | none => none
  | some (ip, r) =>
    match r with
    | '.' :: r2 =>
      match takeDigits r2 with
      | some (fp, r3) => some (ip, fp, r3)
      | none => some (ip, [], r)
    | _ => some (ip, [], r)

/-- Consume a single tab character (regex `\t`). -/
def expectTab : List Char → Option (List Char)
  | '\t' :: rest => some rest
  | _ => none

/-- Value of a digit string. -/
def digitsToNat (ds : List Char) : ℕ :=
  ds.foldl (fun n c => 10 * n + (c.toNat - 48)) 0

/-- Exact rational value of a decimal literal split into integer digits and
fractional digits (the source parses it with `parse::<f32>()`; all values
used in the properties below are `f32`-exact). -/
def decToRat (ip fp : List Char) : ℚ :=
  (digitsToNat ip : ℚ) + (digitsToNat fp : ℚ) / (10 : ℚ) ^ fp.length

/-- One line against the row pattern
`^(\d+)\t(\d+)\t(\d+(?:\.\d+)?)\t(\d+(?:\.\d+)?)` of `prase_trajectory_txt`.
Group 1 is matched but ignored; trailing content after group 4 is ignored;
a non-matching line yields `none` (and is silently skipped by the caller).
The source parses group 2 with `parse::<i32>()`; the digits guarantee a
non-negative value, embedded as `ℕ`. -/
def prase_line (line : String) : Option Entry :=
  match takeDigits line.data with
  | none => none
  | some (_, r1) =>
    match expectTab r1 with
    | none => none
    | some r2 =>
      match takeDigits r2 with
      | none => none
      | some (idDigits, r3) =>
        match expectTab r3 with
        | none => none
        | some r4 =>
          match takeDecimal r4 with
          | none => none
          | some (xi, xf, r5) =>
            match expectTab r5 with
            | none => none
            | some r6 =>
              match takeDecimal r6 with
              | none => none
              | some (yi, yf, _) =>
                some ⟨digitsToNat idDigits, (decToRat xi xf, decToRat yi yf)⟩

/-- Comparison key of `entries.sort_by(|a, b| a.frame_id.cmp(&b.frame_id))`. -/
def entryLE (a b : Entry) : Prop := a.frame_id ≤ b.frame_id

instance : DecidableRel entryLE := fun a b => Nat.decLe a.frame_id b.frame_id

instance : IsTotal Entry entryLE := ⟨fun a b => Nat.le_total a.frame_id b.frame_id⟩

instance : IsTrans Entry entryLE := ⟨fun _ _ _ => Nat.le_trans⟩

/-- The stable ascending sort by `frame_id` performed by
`entries.sort_by(|a, b| a.frame_id.cmp(&b.frame_id))` (Rust's `sort_by` is
stable; a stable sort is determined by its key, and insertion sort is
stable). -/
def sortEntries (es : List Entry) : List Entry := es.insertionSort entryLE

/-- Append a position to the last frame of the list
(`trajectory.frames.last_mut().unwrap().positions.push(...)`); the source
unwraps, but the list always starts non-empty. -/
def pushLast : List Frame → ℚ × ℚ → List Frame
  | [], _ => []
  | [f], p => [⟨f.positions ++ [p]⟩]
  | f :: g :: fs, p => f :: pushLast (g :: fs) p

/-- The body of the frame-building loop of `prase_trajectory_txt`: if
`last_index < entry.frame_id` then `last_index += 1` and a fresh frame is
pushed; in all cases the entry's position is appended to the last frame. -/
def addEntry (s : ℤ × List Frame) (e : Entry) : ℤ × List Frame :=
  if s.1 < (e.frame_id : ℤ) then
    (s.1 + 1, pushLast (s.2 ++ [Frame.new]) e.position)
  else
    (s.1, pushLast s.2 e.position)

/-- The frame-building scan of `prase_trajectory_txt`: `last_index` starts
at `-1` and one initial empty frame is pushed before the loop. -/
def buildFrames (entries : List Entry) : List Frame :=
  (entries.foldl addEntry (-1, [Frame.new])).2

/-- `prase_trajectory_txt` after the file has been read into lines: match
every line, silently dropping non-matching ones, stable-sort by `frame_id`,
then build the frame list. -/
def prase_trajectory_lines (lines : List String) : Trajectory :=
  { frames := buildFrames (sortEntries (lines.filterMap prase_line)) }

/-- Outcome of calling `prase_trajectory_txt` including the file open:
either a parsed trajectory, a recoverable I/O error surfaced to the caller,
or a panic (process crash). -/
inductive ParseOutcome where
  | ok : Trajectory → ParseOutcome
  | ioError : ParseOutcome
  | panicked : ParseOutcome
deriving DecidableEq

/-- `prase_trajectory_txt(path)`: the result of `std::fs::File::open(path)`
is a parameter (`none` = the file cannot be opened).  The source calls
`.unwrap()` on it, so a failed open panics; it never produces a recoverable
error value. -/
def prase_trajectory_txt (openResult : Option (List String)) : ParseOutcome :=
  match openResult with
  | none => ParseOutcome.panicked
  | some lines => ParseOutcome.ok (prase_trajectory_lines lines)

/-- Number of binary digits of a natural number (0 for 0); the fuel
argument only drives termination and `n` itself is always enough fuel. -/
def bitlenFuel : ℕ → ℕ → ℕ
  | 0, _ => 0
  | fuel + 1, n => if n = 0 then 0 else bitlenFuel fuel (n / 2) + 1

/-- Bit length: `2 ^ (bitlen n - 1) ≤ n < 2 ^ bitlen n` for `n > 0`. -/
def bitlen (n : ℕ) : ℕ := bitlenFuel n n

/-- Floor of the base-2 logarithm of a positive rational. -/
def floorLog2 (q : ℚ) : ℤ :=
  let z : ℤ := (bitlen q.num.toNat : ℤ) - (bitlen q.den : ℤ)
  if (2 : ℚ) ^ z ≤ q then z else z - 1

/-- Round a rational to the nearest integer, ties to even (the IEEE-754
default rounding applied to the scaled significand). -/
def roundNE (x : ℚ) : ℤ :=
  if x < ⌊x⌋ + 1 / 2 then ⌊x⌋
  else if (⌊x⌋ : ℚ) + 1 / 2 < x then ⌊x⌋ + 1
  else if ⌊x⌋ % 2 = 0 then ⌊x⌋ else ⌊x⌋ + 1

/-- Value-space model of IEEE-754 binary64 rounding: round a rational to 53
significant bits, nearest-even.  Faithful for zero and for all normal,
non-overflowing magnitudes, which covers every value reached in this
development. -/
def roundF64 (q : ℚ) : ℚ :=
  if q = 0 then 0
  else if 0 < q then
    (roundNE (q / (2 : ℚ) ^ (floorLog2 q - 52)) : ℚ) * (2 : ℚ) ^ (floorLog2 q - 52)
  else
    -((roundNE (-q / (2 : ℚ) ^ (floorLog2 (-q) - 52)) : ℚ) *
      (2 : ℚ) ^ (floorLog2 (-q) - 52))

/-- `Duration::as_secs_f64` on a nanosecond count:
`(secs as f64) + (subsec_nanos as f64) / (NANOS_PER_SEC as f64)`, each
conversion and operation rounding to binary64 (`subsec_nanos < 10^9` and
`10^9` itself are exactly representable, so only the `secs` conversion, the
division and the addition can actually round). -/
def as_secs_f64 (ns : ℕ) : ℚ :=
  roundF64 (roundF64 ((ns / 1000000000 : ℕ) : ℚ) +
    roundF64 (roundF64 ((ns % 1000000000 : ℕ) : ℚ) / 1000000000))

/-- The frame-index computation of `Replay::advance_by`:
`(elapsed.as_secs_f64() / frame_duration.as_secs_f64()) as usize` — a
binary64 division followed by the truncating `as usize` cast.  Negative or
overflowing quotients cannot arise from durations; in the
`frame_duration = 0` case every reachable state has `elapsed = 0` and
Rust's `0.0 / 0.0 = NaN` casts to 0, which this model also yields via the
`0 / 0 = 0` convention of `ℚ` and `roundF64 0 = 0`. -/
def frameIndexF64 (elapsed frame_duration : ℕ) : ℕ :=
  (⌊roundF64 (as_secs_f64 elapsed / as_secs_f64 frame_duration)⌋).toNat

/-- `Replay` from `replay.rs`; all durations are nanosecond counts. -/
structure Replay where
  trajectory : Trajectory
  current_frame_index : ℕ
  frame_duration : ℕ
  elapsed : ℕ
  total_duration : ℕ
deriving DecidableEq, Repr

/-- `Replay::new`: `total_duration` is `frame_duration * (frame_count - 1)`
when the trajectory is non-empty, else zero; playback starts at index 0
with zero elapsed time. -/
def Replay.new (trajectory : Trajectory) (frame_duration : ℕ) : Replay :=
  let frame_count := trajectory.frames.length
  let total_duration := if frame_count = 0 then 0 else frame_duration * (frame_count - 1)
  ⟨trajectory, 0, frame_duration, 0, total_duration⟩

/-- `Replay::advance_by`: clamp `elapsed + duration` at `total_duration`
(exact `Duration` arithmetic), then recompute the frame index as
`(elapsed.as_secs_f64() / frame_duration.as_secs_f64()) as usize`, modelled
faithfully with binary64 rounding at every operation. -/
def Replay.advance_by (r : Replay) (duration : ℕ) : Replay :=
  let elapsed := min r.total_duration (r.elapsed + duration)
  { r with
    elapsed := elapsed
    current_frame_index := frameIndexF64 elapsed r.frame_duration }

/-- `Replay::frames()`: the frame count of the wrapped trajectory. -/
def Replay.frames (r : Replay) : ℕ := r.trajectory.frames.length

/-- A finite sequence of `advance_by` calls, as issued by the host loop. -/
def Replay.advanceSeq (r : Replay) (ds : List ℕ) : Replay :=
  ds.foldl Replay.advance_by r

/-- `fixup_aspect_ratio` from `main.rs`: expand one axis of the box
symmetrically so its aspect ratio matches `display_aspect`. -/
def fixup_aspect_ratio (left right bottom top display_aspect : ℚ) :
    ℚ × ℚ × ℚ × ℚ :=
  let width := right - left
  let height := top - bottom
  let data_aspect := width / height
  if data_aspect > display_aspect then
    let desired_height := width / display_aspect
    let delta := (desired_height - height) / 2
    (left, right, bottom - delta, top + delta)
  else
    let desired_width := height * display_aspect
    let delta := (desired_width - width) / 2
    (left - delta, right + delta, bottom, top)

/-- Lines of the end-to-end example file from the specification. -/
def exampleLines : List String :=
  ["1\t0\t0.0\t0.0", "1\t0\t1.0\t1.0", "1\t1\t2.0\t2.0"]

/-- Lines of the bounding-box example file (the third row has a negative x
coordinate). -/
def areaExampleLines : List String :=
  ["1\t0\t1.0\t2.0", "1\t0\t3.0\t0.0", "1\t1\t-1.0\t5.0"]

lemma pushLast_length (p : ℚ × ℚ) : ∀ fs : List Frame, (pushLast fs p).length = fs.length
  | [] => rfl
  | [_] => rfl
  | f :: g :: fs => by
    have := pushLast_length p (g :: fs)
    simp [pushLast, this]

lemma pushLast_ne_nil (p : ℚ × ℚ) (fs : List Frame) (h : fs ≠ []) : pushLast fs p ≠ [] := by
  intro hc
  have := pushLast_length p fs
  rw [hc] at this
  exact h (List.eq_nil_of_length_eq_zero this.symm)

/-- Scanning a weakly sorted entry list whose set of ids is exactly the
integer interval `(last, last + k]` appends exactly `k` frames: the loop in
`prase_trajectory_txt` creates one frame per id transition. -/
lemma foldl_addEntry_length :
    ∀ (es : List Entry) (last : ℤ) (k : ℕ) (fs : List Frame), fs ≠ [] →
    es.Pairwise entryLE →
    (∀ e ∈ es, last ≤ (e.frame_id : ℤ) ∧ (e.frame_id : ℤ) ≤ last + k) →
    (∀ v : ℤ, last + 1 ≤ v → v ≤ last + k → ∃ e ∈ es, (e.frame_id : ℤ) = v) →
    (es.foldl addEntry (last, fs)).2.length = fs.length + k
  | [], last, k, fs, _, _, _, hsup => by
    have hk : k = 0 := by
      by_contra hk0
      obtain ⟨e, hmem, _⟩ := hsup (last + 1) le_rfl (by omega)
      exact absurd hmem (List.not_mem_nil e)
    simp [hk]
  | e :: es, last, k, fs, hfs, hpw, hsub, hsup => by
    rw [List.pairwise_cons] at hpw
    obtain ⟨hhead, htail⟩ := hpw
    obtain ⟨hlb, hub⟩ := hsub e (List.mem_cons_self e es)
    by_cases hlt : last < (e.frame_id : ℤ)
    · have hk : 1 ≤ k := by omega
      have heid : (e.frame_id : ℤ) = last + 1 := by
        by_contra hne
        have h2 : last + 2 ≤ (e.frame_id : ℤ) := by omega
        obtain ⟨e2, hmem2, hid2⟩ := hsup (last + 1) le_rfl (by omega)
        rcases List.mem_cons.mp hmem2 with h | h
        · rw [h] at hid2; omega
        · have : e.frame_id ≤ e2.frame_id := hhead e2 h
          omega
      have hstep : List.foldl addEntry (last, fs) (e :: es) =
          List.foldl addEntry (last + 1, pushLast (fs ++ [Frame.new]) e.position) es := by
        simp [addEntry, hlt]
      rw [hstep]
      have hne2 : pushLast (fs ++ [Frame.new]) e.position ≠ [] :=
        pushLast_ne_nil _ _ (by simp)
      have hrec := foldl_addEntry_length es (last + 1) (k - 1)
        (pushLast (fs ++ [Frame.new]) e.position) hne2 htail
        (by
          intro e2 hmem
          have h1 : e.frame_id ≤ e2.frame_id := hhead e2 hmem
          have h2 := (hsub e2 (List.mem_cons_of_mem e hmem)).2
          omega)
        (by
          intro v hv1 hv2
          obtain ⟨e2, hmem2, hid2⟩ := hsup v (by omega) (by omega)
          rcases List.mem_cons.mp hmem2 with h | h
          · rw [h] at hid2; omega
          · exact ⟨e2, h, hid2⟩)
      rw [hrec, pushLast_length]
      simp only [List.length_append, List.length_singleton]
      omega
    · have heid : (e.frame_id : ℤ) = last := by omega
      have hstep : List.foldl addEntry (last, fs) (e :: es) =
          List.foldl addEntry (last, pushLast fs e.position) es := by
        simp [addEntry, hlt]
      rw [hstep]
      have hrec := foldl_addEntry_length es last k (pushLast fs e.position)
        (pushLast_ne_nil _ _ hfs) htail
        (by
          intro e2 hmem
          have h1 : e.frame_id ≤ e2.frame_id := hhead e2 hmem
          have h2 := (hsub e2 (List.mem_cons_of_mem e hmem)).2
          omega)
        (by
          intro v hv1 hv2
          obtain ⟨e2, hmem2, hid2⟩ := hsup v hv1 hv2
          rcases List.mem_cons.mp hmem2 with h | h
          · rw [h] at hid2; omega
          · exact ⟨e2, h, hid2⟩)
      rw [hrec, pushLast_length]

/-- Frame count produced by the parser when the matched ids are exactly
`{0, ..., m-1}`: one leading empty frame plus one frame per distinct id. -/
lemma buildFrames_length (es : List Entry) (m : ℕ)
    (hset : (es.map Entry.frame_id).toFinset = Finset.range m) :
    (buildFrames (sortEntries es)).length = m + 1 := by
  have hperm : List.Perm (sortEntries es) es := List.perm_insertionSort entryLE es
  have hid : ∀ n : ℕ, (∃ e ∈ es, e.frame_id = n) ↔ n < m := by
    intro n
    rw [← Finset.mem_range, ← hset, List.mem_toFinset, List.mem_map]
  have hlen := foldl_addEntry_length (sortEntries es) (-1) m [Frame.new]
    (by simp)
    (List.sorted_insertionSort entryLE es)
    (by
      intro e hmem
      have : e.frame_id < m := (hid e.frame_id).mp ⟨e, hperm.mem_iff.mp hmem, rfl⟩
      omega)
    (by
      intro v hv1 hv2
      have hvnn : 0 ≤ v := by omega
      have : v.toNat < m := by omega
      obtain ⟨e, hmem, hn⟩ := (hid v.toNat).mpr this
      exact ⟨e, hperm.mem_iff.mpr hmem, by omega⟩)
  rw [buildFrames, hlen]
  simp [Nat.add_comm]

lemma pushLast_cons_of_ne_nil (f : Frame) (rest : List Frame) (p : ℚ × ℚ) (h : rest ≠ []) :
    pushLast (f :: rest) p = f :: pushLast rest p := by
  cases rest with
  | nil => exact absurd rfl h
  | cons g gs => rfl

/-- Once the frame list has the shape `f :: rest` with `rest` non-empty, the
frame-building loop never touches `f` again. -/
lemma foldl_addEntry_head :
    ∀ (es : List Entry) (last : ℤ) (f : Frame) (rest : List Frame), rest ≠ [] →
    ∃ rest2, (es.foldl addEntry (last, f :: rest)).2 = f :: rest2 ∧ rest2 ≠ []
  | [], _, _, rest, h => ⟨rest, rfl, h⟩
  | e :: es, last, f, rest, h => by
    by_cases hlt : last < (e.frame_id : ℤ)
    · have happ : (f :: rest) ++ [Frame.new] = f :: (rest ++ [Frame.new]) := rfl
      have hstep : List.foldl addEntry (last, f :: rest) (e :: es) =
          List.foldl addEntry
            (last + 1, f :: pushLast (rest ++ [Frame.new]) e.position) es := by
        simp [addEntry, hlt, happ,
          pushLast_cons_of_ne_nil f (rest ++ [Frame.new]) e.position (by simp)]
      rw [hstep]
      exact foldl_addEntry_head es (last + 1) f _
        (pushLast_ne_nil _ _ (by simp))
    · have hstep : List.foldl addEntry (last, f :: rest) (e :: es) =
          List.foldl addEntry (last, f :: pushLast rest e.position) es := by
        simp [addEntry, hlt, pushLast_cons_of_ne_nil f rest e.position h]
      rw [hstep]
      exact foldl_addEntry_head es last f _ (pushLast_ne_nil _ _ h)

lemma sortEntries_ne_nil (es : List Entry) (h : es ≠ []) : sortEntries es ≠ [] := by
  intro hc
  have hperm : List.Perm (sortEntries es) es := List.perm_insertionSort entryLE es
  rw [hc] at hperm
  exact h hperm.nil_eq.symm

/-- Whenever at least one entry is matched, the built frame list starts with
the initial empty frame followed by at least one further frame. -/
lemma buildFrames_head (es : List Entry) (h : es ≠ []) :
    ∃ rest, buildFrames (sortEntries es) = Frame.new :: rest ∧ rest ≠ [] := by
  obtain ⟨e, es2, hcons⟩ := List.exists_cons_of_ne_nil (sortEntries_ne_nil es h)
  rw [buildFrames, hcons]
  have hlt : (-1 : ℤ) < (e.frame_id : ℤ) := by omega
  have hstep : List.foldl addEntry (-1, [Frame.new]) (e :: es2) =
      List.foldl addEntry (0, [Frame.new, ⟨[e.position]⟩]) es2 := by
    simp [addEntry, hlt, pushLast, Frame.new]
  rw [hstep]
  have := foldl_addEntry_head es2 0 Frame.new [⟨[e.position]⟩] (by simp)
  obtain ⟨rest2, heq, hne⟩ := this
  exact ⟨rest2, heq, hne⟩

lemma roundF64_zero : roundF64 0 = 0 := by simp [roundF64]

lemma as_secs_f64_zero : as_secs_f64 0 = 0 := by
  simp [as_secs_f64, roundF64_zero]

lemma frameIndexF64_zero (d : ℕ) : frameIndexF64 0 d = 0 := by
  simp [frameIndexF64, as_secs_f64_zero, roundF64_zero]

/-- State invariant of every `Replay` reachable from `Replay::new` by
`advance_by` calls: the static fields are those set by the constructor, the
elapsed time is clamped, and the frame index is the f64 quotient of the
elapsed time by the frame duration, truncated. -/
def ReplayInv (t : Trajectory) (d : ℕ) (r : Replay) : Prop :=
  r.trajectory = t ∧ r.frame_duration = d ∧
  r.total_duration = (Replay.new t d).total_duration ∧
  r.elapsed ≤ r.total_duration ∧
  r.current_frame_index = frameIndexF64 r.elapsed d

lemma replayInv_new (t : Trajectory) (d : ℕ) : ReplayInv t d (Replay.new t d) := by
  refine ⟨rfl, rfl, rfl, Nat.zero_le _, ?_⟩
  show (0 : ℕ) = frameIndexF64 (Replay.new t d).elapsed d
  rw [show (Replay.new t d).elapsed = 0 from rfl, frameIndexF64_zero]

lemma replayInv_advance_by (t : Trajectory) (d : ℕ) (r : Replay) (δ : ℕ)
    (h : ReplayInv t d r) : ReplayInv t d (r.advance_by δ) := by
  obtain ⟨h1, h2, h3, h4, h5⟩ := h
  exact ⟨h1, h2, h3, min_le_left _ _, by rw [Replay.advance_by, h2]⟩

lemma replayInv_advanceSeq (t : Trajectory) (d : ℕ) (r : Replay) (ds : List ℕ)
    (h : ReplayInv t d r) : ReplayInv t d (r.advanceSeq ds) := by
  induction ds generalizing r with
  | nil => exact h
  | cons δ ds ih => exact ih _ (replayInv_advance_by t d r δ h)

/-- `advance_by 0` leaves any reachable `Replay` unchanged. -/
lemma advance_by_zero (t : Trajectory) (d : ℕ) (r : Replay)
    (h : ReplayInv t d r) : r.advance_by 0 = r := by
  obtain ⟨_, h2, _, h4, h5⟩ := h
  have he : min r.total_duration (r.elapsed + 0) = r.elapsed := by
    simpa using min_eq_right h4
  have h5b : r.current_frame_index = frameIndexF64 r.elapsed r.frame_duration := by
    rw [h5, h2]
  rw [Replay.advance_by]
  simp only [he, ← h5b]

lemma digits0 : digitsToNat ['0'] = 0 := by decide
lemma digits1 : digitsToNat ['1'] = 1 := by decide
lemma digits2 : digitsToNat ['2'] = 2 := by decide
lemma digits3 : digitsToNat ['3'] = 3 := by decide

lemma decToRat_00 : decToRat ['0'] ['0'] = 0 := by
  simp [decToRat, digits0]
lemma decToRat_10 : decToRat ['1'] ['0'] = 1 := by
  simp [decToRat, digits1, digits0]
lemma decToRat_20 : decToRat ['2'] ['0'] = 2 := by
  simp [decToRat, digits2, digits0]
lemma decToRat_30 : decToRat ['3'] ['0'] = 3 := by
  simp [decToRat, digits3, digits0]

lemma prase_line_e1 : prase_line "1\t0\t0.0\t0.0" =
    some ⟨0, (decToRat ['0'] ['0'], decToRat ['0'] ['0'])⟩ := rfl
lemma prase_line_e2 : prase_line "1\t0\t1.0\t1.0" =
    some ⟨0, (decToRat ['1'] ['0'], decToRat ['1'] ['0'])⟩ := rfl
lemma prase_line_e3 : prase_line "1\t1\t2.0\t2.0" =
    some ⟨1, (decToRat ['2'] ['0'], decToRat ['2'] ['0'])⟩ := rfl

lemma prase_line_a1 : prase_line "1\t0\t1.0\t2.0" =
    some ⟨0, (decToRat ['1'] ['0'], decToRat ['2'] ['0'])⟩ := rfl
lemma prase_line_a2 : prase_line "1\t0\t3.0\t0.0" =
    some ⟨0, (decToRat ['3'] ['0'], decToRat ['0'] ['0'])⟩ := rfl

/-- The third bounding-box example row has a negative x coordinate; the row
pattern `\d+` does not admit a minus sign, so the row does not match. -/
lemma prase_line_a3 : prase_line "1\t1\t-1.0\t5.0" = none := rfl

lemma parse_exampleLines : exampleLines.filterMap prase_line =
    [⟨0, (0, 0)⟩, ⟨0, (1, 1)⟩, ⟨1, (2, 2)⟩] := by
  simp [exampleLines, prase_line_e1, prase_line_e2, prase_line_e3,
    decToRat_00, decToRat_10, decToRat_20]

lemma parse_areaExampleLines : areaExampleLines.filterMap prase_line =
    [⟨0, (1, 2)⟩, ⟨0, (3, 0)⟩] := by
  simp [areaExampleLines, prase_line_a1, prase_line_a2, prase_line_a3,
    decToRat_00, decToRat_10, decToRat_20, decToRat_30]

lemma frames_exampleLines : (prase_trajectory_lines exampleLines).frames =
    [⟨[]⟩, ⟨[(0, 0), (1, 1)]⟩, ⟨[(2, 2)]⟩] := by
  rw [prase_trajectory_lines, parse_exampleLines]
  simp [sortEntries, entryLE, buildFrames, addEntry, pushLast, Frame.new]

lemma area_areaExampleLines : (prase_trajectory_lines areaExampleLines).area =
    (1, 3, 0, 2) := by
  rw [prase_trajectory_lines, parse_areaExampleLines]
  have hb : buildFrames (sortEntries [⟨0, (1, 2)⟩, ⟨0, (3, 0)⟩]) =
      [⟨[]⟩, ⟨[(1, 2), (3, 0)]⟩] := by
    simp [sortEntries, entryLE, buildFrames, addEntry, pushLast, Frame.new]
  rw [hb, Trajectory.area]
  simp only [List.foldl, areaStep]
  norm_num [f32MAX, f32MIN, min_def, max_def]

/-- C1 counterexample: the example file with rows `1\t0\t0.0\t0.0`,
`1\t0\t1.0\t1.0`, `1\t1\t2.0\t2.0` parses to 3 frames, not 2: the loop
always pushes one initial empty frame before the first matched entry. -/
theorem c1_counterexample_frame_count :
    (prase_trajectory_lines exampleLines).frames.length ≠ 2 := by decide

/-- C1 (amended): for every file of well-formed rows whose frame ids form
the contiguous range `{0, ..., m-1}`, the parsed trajectory has `m + 1`
frames (one leading empty frame plus one frame per distinct id); in
particular the example file parses to 3 frames: frame 0 empty, frame 1 with
two positions, frame 2 with one position. -/
theorem c1_frame_count_amended :
    (∀ (lines : List String) (m : ℕ),
      (∀ l ∈ lines, (prase_line l).isSome = true) →
      ((lines.filterMap prase_line).map Entry.frame_id).toFinset = Finset.range m →
      (prase_trajectory_lines lines).frames.length = m + 1) ∧
    (prase_trajectory_lines exampleLines).frames =
      [⟨[]⟩, ⟨[(0, 0), (1, 1)]⟩, ⟨[(2, 2)]⟩] :=
  ⟨fun lines m _ hset => buildFrames_length _ m hset, frames_exampleLines⟩

/-- C1 witness: the amended count theorem applied to the example file,
whose distinct ids are `{0, 1}`. -/
theorem c1_frame_count_amended_witness :
    (∀ l ∈ exampleLines, (prase_line l).isSome = true) ∧
    (prase_trajectory_lines exampleLines).frames.length = 2 + 1 :=
  ⟨by decide, c1_frame_count_amended.1 exampleLines 2 (by decide) (by decide)⟩

/-- C3 counterexample: when the file cannot be opened the parser does not
produce a recoverable I/O-error value; it panics (`File::open(path).unwrap()`). -/
theorem c3_counterexample_open_failure :
    prase_trajectory_txt none ≠ ParseOutcome.ioError ∧
    prase_trajectory_txt none = ParseOutcome.panicked := ⟨by decide, rfl⟩

/-- C3 (amended): when the log file cannot be opened,
`prase_trajectory_txt` panics (it unwraps the `File::open` result),
crashing instead of surfacing a recoverable I/O error to the caller. -/
theorem c3_open_failure_amended :
    prase_trajectory_txt none = ParseOutcome.panicked := rfl

/-- C4 counterexample: for the bounding-box example file the claimed area
`(-1, 3, 0, 5)` is wrong: the row with x = -1.0 does not match the row
pattern (no minus sign in `\d+`) and is dropped. -/
theorem c4_counterexample_area :
    (prase_trajectory_lines areaExampleLines).area ≠ ((-1 : ℚ), 3, 0, 5) := by
  rw [area_areaExampleLines]
  norm_num [Prod.ext_iff]

/-- C4 (amended): the row `(_, 1, -1.0, 5.0)` does not match the row
pattern and is silently dropped, so `area()` over the remaining rows
`(_, 0, 1.0, 2.0)` and `(_, 0, 3.0, 0.0)` returns
`(x_min = 1.0, x_max = 3.0, y_min = 0.0, y_max = 2.0)`. -/
theorem c4_area_amended :
    (prase_trajectory_lines areaExampleLines).area = (1, 3, 0, 2) :=
  area_areaExampleLines

lemma bitlen_one : bitlen 1 = 1 := by decide
lemma bitlen_10 : bitlen 10 = 4 := by decide
lemma bitlen_den03 : bitlen 18014398509481984 = 55 := by decide
lemma bitlen_den01 : bitlen 36028797018963968 = 56 := by decide
lemma bitlen_sig01den : bitlen 3602879701896397 = 52 := by decide
lemma bitlen_tn_3 : bitlen (Int.toNat 3) = 2 := by decide
lemma bitlen_tn_1 : bitlen (Int.toNat 1) = 1 := by decide
lemma bitlen_tn_3e8 : bitlen (Int.toNat 300000000) = 29 := by decide
lemma bitlen_tn_1e8 : bitlen (Int.toNat 100000000) = 27 := by decide
lemma bitlen_tn_sig03 : bitlen (Int.toNat 5404319552844595) = 53 := by decide
lemma bitlen_tn_sig01 : bitlen (Int.toNat 3602879701896397) = 52 := by decide
lemma bitlen_tn_rationum : bitlen (Int.toNat 10808639105689190) = 54 := by decide

lemma roundF64_1e8 : roundF64 (100000000 : ℚ) = 100000000 := by
  norm_num [roundF64, floorLog2, roundNE, bitlen_tn_1e8, bitlen_one]

lemma roundF64_3e8 : roundF64 (300000000 : ℚ) = 300000000 := by
  norm_num [roundF64, floorLog2, roundNE, bitlen_tn_3e8, bitlen_one]

/-- The binary64 value of 0.3 is 5404319552844595 * 2 ^ (-54), strictly
below 3/10. -/
lemma roundF64_03 : roundF64 (3 / 10 : ℚ) = 5404319552844595 / 18014398509481984 := by
  norm_num [roundF64, floorLog2, roundNE, bitlen_tn_3, bitlen_10]

/-- The binary64 value of 0.1 is 3602879701896397 * 2 ^ (-55), strictly
above 1/10. -/
lemma roundF64_01 : roundF64 (1 / 10 : ℚ) = 3602879701896397 / 36028797018963968 := by
  norm_num [roundF64, floorLog2, roundNE, bitlen_tn_1, bitlen_one, bitlen_10]

lemma roundF64_fix03 :
    roundF64 (5404319552844595 / 18014398509481984 : ℚ) =
      5404319552844595 / 18014398509481984 := by
  norm_num [roundF64, floorLog2, roundNE, bitlen_tn_sig03, bitlen_den03]

lemma roundF64_fix01 :
    roundF64 (3602879701896397 / 36028797018963968 : ℚ) =
      3602879701896397 / 36028797018963968 := by
  norm_num [roundF64, floorLog2, roundNE, bitlen_tn_sig01, bitlen_den01]

/-- The binary64 quotient of 0.3 by 0.1: the exact ratio of the two
rounded operands rounds to 6755399441055743 * 2 ^ (-51), i.e.
2.9999999999999996, one unit in the last place below 3. -/
lemma roundF64_ratio :
    roundF64 (10808639105689190 / 3602879701896397 : ℚ) =
      6755399441055743 / 2251799813685248 := by
  norm_num [roundF64, floorLog2, roundNE, bitlen_tn_rationum, bitlen_sig01den]

lemma as_secs_300ms : as_secs_f64 300000000 = 5404319552844595 / 18014398509481984 := by
  norm_num [as_secs_f64, roundF64_zero, roundF64_3e8, roundF64_03, roundF64_fix03]

lemma as_secs_100ms : as_secs_f64 100000000 = 3602879701896397 / 36028797018963968 := by
  norm_num [as_secs_f64, roundF64_zero, roundF64_1e8, roundF64_01, roundF64_fix01]

/-- At elapsed = 300 ms and frame_duration = 100 ms the code's index
computation yields 2, not 3: `(0.3_f64 / 0.1_f64) as usize = 2`. -/
lemma frameIndexF64_failing : frameIndexF64 300000000 100000000 = 2 := by
  rw [frameIndexF64, as_secs_300ms, as_secs_100ms]
  norm_num [roundF64_ratio]
  decide

/-- C5 (code bug): with 4 frames and `frame_duration = 100ms`
(`total_duration = 300ms`), a single `advance_by(400ms)` saturates
`elapsed` at 300ms but leaves `current_frame_index = 2`, not
`frame_count - 1 = 3`: the f64 quotient `0.3 / 0.1` is
2.9999999999999996 and the `as usize` cast truncates it to 2, contradicting
the claimed (and clearly intended) saturation onto the last frame. -/
theorem c5_saturation_code_bug :
    ((Replay.new (Trajectory.mk (List.replicate 4 Frame.new)) 100000000).advance_by
        400000000).elapsed = 300000000 ∧
    ((Replay.new (Trajectory.mk (List.replicate 4 Frame.new)) 100000000).advance_by
        400000000).current_frame_index = 2 ∧
    (Trajectory.mk (List.replicate 4 Frame.new)).frames.length - 1 = 3 := by
  refine ⟨by decide, ?_, by decide⟩
  show frameIndexF64
      (min (Replay.new (Trajectory.mk (List.replicate 4 Frame.new)) 100000000).total_duration
        ((Replay.new (Trajectory.mk (List.replicate 4 Frame.new)) 100000000).elapsed +
          400000000))
      (Replay.new (Trajectory.mk (List.replicate 4 Frame.new)) 100000000).frame_duration = 2
  have hmin : min (Replay.new (Trajectory.mk (List.replicate 4 Frame.new))
      100000000).total_duration
      ((Replay.new (Trajectory.mk (List.replicate 4 Frame.new)) 100000000).elapsed +
        400000000) = 300000000 := by decide
  rw [hmin]
  exact frameIndexF64_failing

/-- C6: calling `advance_by(0)` any number of times on any reachable
`Replay` changes nothing: neither `elapsed` nor `current_frame_index` (nor
any other field). -/
theorem c6_advance_zero (t : Trajectory) (d : ℕ) (ds : List ℕ) (k : ℕ) :
    ((Replay.new t d).advanceSeq ds).advanceSeq (List.replicate k 0) =
      (Replay.new t d).advanceSeq ds := by
  induction k with
  | zero => rfl
  | succ k ih =>
    have hinv := replayInv_advanceSeq t d _ ds (replayInv_new t d)
    rw [List.replicate_succ]
    show (((Replay.new t d).advanceSeq ds).advance_by 0).advanceSeq (List.replicate k 0) =
      (Replay.new t d).advanceSeq ds
    rw [advance_by_zero t d _ hinv]
    exact ih

/-- C7: fitting the box `left=0, right=4, bottom=0, top=1` to display
aspect 1 keeps `left/right` and grows the vertical extent symmetrically to
height 4 around the original midpoint: `bottom = -1.5`, `top = 2.5`. -/
theorem c7_fit_example :
    ( fixup_aspect_ratio 0 4 0 1 1) = (0, 4, -(3 / 2 : ℚ), 5 / 2) := by
  simp only [ fixup_aspect_ratio]
  norm_num

/-- C8: for every non-degenerate box and every display aspect, the fitter
returns one axis unchanged (either `left/right` or `bottom/top`) and
preserves the box midpoint on both axes. -/
theorem c8_fit_one_axis (l r b t a : ℚ) (hw : r - l ≠ 0) (hh : t - b ≠ 0) :
    ((( fixup_aspect_ratio l r b t a).1 = l ∧ ( fixup_aspect_ratio l r b t a).2.1 = r) ∨
      (( fixup_aspect_ratio l r b t a).2.2.1 = b ∧
        ( fixup_aspect_ratio l r b t a).2.2.2 = t)) ∧
    (( fixup_aspect_ratio l r b t a).1 + ( fixup_aspect_ratio l r b t a).2.1) / 2 =
      (l + r) / 2 ∧
    (( fixup_aspect_ratio l r b t a).2.2.1 + ( fixup_aspect_ratio l r b t a).2.2.2) / 2 =
      (b + t) / 2 := by
  simp only [ fixup_aspect_ratio]
  split_ifs with hcase
  · exact ⟨Or.inl ⟨rfl, rfl⟩, rfl, by ring⟩
  · exact ⟨Or.inr ⟨rfl, rfl⟩, by ring, rfl⟩

/-- C8 witness: the fitter applied to the C7 box. -/
theorem c8_fit_one_axis_witness :
    (4 : ℚ) - 0 ≠ 0 ∧ (1 : ℚ) - 0 ≠ 0 ∧
    (((( fixup_aspect_ratio 0 4 0 1 1).1 = 0 ∧ ( fixup_aspect_ratio 0 4 0 1 1).2.1 = 4) ∨
        (( fixup_aspect_ratio 0 4 0 1 1).2.2.1 = 0 ∧
          ( fixup_aspect_ratio 0 4 0 1 1).2.2.2 = 1)) ∧
      (( fixup_aspect_ratio 0 4 0 1 1).1 + ( fixup_aspect_ratio 0 4 0 1 1).2.1) / 2 =
        (0 + 4) / 2 ∧
      (( fixup_aspect_ratio 0 4 0 1 1).2.2.1 + ( fixup_aspect_ratio 0 4 0 1 1).2.2.2) / 2 =
        (0 + 1) / 2) :=
  ⟨by norm_num, by norm_num, c8_fit_one_axis 0 4 0 1 1 (by norm_num) (by norm_num)⟩

/-- C9: a file in which no line matches the row pattern (including the
empty file) parses to exactly one frame with zero positions. -/
theorem c9_no_match (lines : List String) (h : ∀ l ∈ lines, prase_line l = none) :
    (prase_trajectory_lines lines).frames = [Frame.new] := by
  have hnil : lines.filterMap prase_line = [] := by
    induction lines with
    | nil => rfl
    | cons x xs ih =>
      rw [List.filterMap_cons, h x (List.mem_cons_self x xs)]
      exact ih (fun l hl => h l (List.mem_cons_of_mem x hl))
  show buildFrames (sortEntries (lines.filterMap prase_line)) = [Frame.new]
  rw [hnil]
  rfl

/-- C9 witness: a file of two non-matching lines. -/
theorem c9_no_match_witness :
    (∀ l ∈ ["garbage", ""], prase_line l = none) ∧
    (prase_trajectory_lines ["garbage", ""]).frames = [Frame.new] :=
  ⟨by decide, c9_no_match ["garbage", ""] (by decide)⟩

/-- C10: whenever at least one line matches the row pattern, the frame at
playback index 0 is empty: the counter starts at -1 and every matched
frame id is non-negative, so the first match always opens a second frame. -/
theorem c10_first_frame_empty (lines : List String) (l₀ : String)
    (hmem : l₀ ∈ lines) (hsome : (prase_line l₀).isSome = true) :
    (prase_trajectory_lines lines).frames.head? = some Frame.new := by
  obtain ⟨e₀, he₀⟩ := Option.isSome_iff_exists.mp hsome
  have hne : lines.filterMap prase_line ≠ [] := by
    intro hc
    have hmem2 : e₀ ∈ lines.filterMap prase_line :=
      List.mem_filterMap.mpr ⟨l₀, hmem, he₀⟩
    rw [hc] at hmem2
    exact List.not_mem_nil e₀ hmem2
  obtain ⟨rest, hr, -⟩ := buildFrames_head _ hne
  show (buildFrames (sortEntries (lines.filterMap prase_line))).head? = some Frame.new
  rw [hr]
  rfl

/-- C10 witness: a single matching line. -/
theorem c10_first_frame_empty_witness :
    "1\t0\t1.0\t2.0" ∈ ["1\t0\t1.0\t2.0"] ∧
    (prase_line "1\t0\t1.0\t2.0").isSome = true ∧
    (prase_trajectory_lines ["1\t0\t1.0\t2.0"]).frames.head? = some Frame.new :=
  ⟨by decide, by decide,
    c10_first_frame_empty ["1\t0\t1.0\t2.0"] "1\t0\t1.0\t2.0" (by decide) (by decide)⟩

end VisTwo
